import Mathlib

/-!
# ReactPhysics3D: broad-phase pair ordering and testbed trackball

A shallow embedding of
* `src/collision/broadphase/BroadPhaseAlgorithm.h` (`BroadPair`, `BroadPair::smallerThan`,
  `BroadPhaseAlgorithm::testOverlappingShapes`), and
* `testbed/Scene.cpp` (`Scene::mapMouseCoordinatesToSphere`, `Scene::mouseButtonEvent`,
  `Scene::rotate`),

followed by the properties established about them.

C++ `int` handles are embedded as `Int`: the code only compares them (and takes `min`/`max`),
so no arithmetic can overflow.
-/

set_option linter.unusedVariables false

namespace reactphysics3d

/-! ## Data model -/

/-- Structure `BroadPair`: a potential overlapping pair during the broad phase. It is a plain
aggregate of two public `int` members; the header declares no constructor. -/
structure BroadPair where
  /-- Broad-phase ID of the first collision shape -/
  collisionShape1ID : Int
  /-- Broad-phase ID of the second collision shape -/
  collisionShape2ID : Int
  deriving DecidableEq, Repr

/-- Method `BroadPair::smallerThan`, used to compare two pairs for the sorting algorithm. -/
def BroadPair.smallerThan (pair1 pair2 : BroadPair) : Bool :=
  if pair1.collisionShape1ID < pair2.collisionShape1ID then true
  else if pair1.collisionShape1ID = pair2.collisionShape1ID then
    decide (pair1.collisionShape2ID < pair2.collisionShape2ID)
  else false

/-- Class `ProxyShape`: of the proxy shape only the broad-phase handle `mBroadPhaseID` is read by
the code embedded here. -/
structure ProxyShape where
  /-- Broad-phase ID (node ID in the dynamic AABB tree) -/
  mBroadPhaseID : Int
  deriving DecidableEq, Repr

/-- Class `BroadPhaseAlgorithm`. The C arrays `mMovedShapes` and `mPotentialPairs` are embedded,
together with their element counts `mNbMovedShapes` and `mNbPotentialPairs`, as lists. The type
`DynamicAABBTree` is declared in another file and is a parameter. -/
structure BroadPhaseAlgorithm (DynamicAABBTree : Type) where
  /-- Dynamic AABB tree -/
  mDynamicAABBTree : DynamicAABBTree
  /-- Broad-phase IDs of all collision shapes that have moved during the last simulation step -/
  mMovedShapes : List Int
  /-- Temporary array of potential overlapping pairs (with potential duplicates) -/
  mPotentialPairs : List BroadPair

/-- Method `BroadPhaseAlgorithm::testOverlappingShapes`. `DynamicAABBTree::getFatAABB` and
`AABB::testCollision` are defined in other files and are parameters. The method
is `const`: the coordinator is handed back as it was received, next to the answer. -/
def BroadPhaseAlgorithm.testOverlappingShapes {DynamicAABBTree AABB : Type}
    (getFatAABB : DynamicAABBTree → Int → AABB) (testCollision : AABB → AABB → Bool)
    (self : BroadPhaseAlgorithm DynamicAABBTree) (shape1 shape2 : ProxyShape) :
    Bool × BroadPhaseAlgorithm DynamicAABBTree :=
  -- Get the two AABBs of the collision shapes
  let aabb1 := getFatAABB self.mDynamicAABBTree shape1.mBroadPhaseID
  let aabb2 := getFatAABB self.mDynamicAABBTree shape2.mBroadPhaseID
  -- Check if the two AABBs are overlapping
  (testCollision aabb1 aabb2, self)

/-! ## Pair buffering, sorting and collapsing

The bodies of `notifyOverlappingPair` and `computeOverlappingPairs` are in
`BroadPhaseAlgorithm.cpp`, which is not part of the sources embedded here; the header only
declares them. They are modelled from the specification of the coordinator. -/

/-- Modelled from the spec: the body of `BroadPhaseAlgorithm::notifyOverlappingPair` (declared in
the header, defined in the missing `BroadPhaseAlgorithm.cpp`). "For each hit handle H' ≠ H, form
the ordered pair (min,max); append to a pair buffer." -/
def BroadPhaseAlgorithm.notifyOverlappingPair {DynamicAABBTree : Type}
    (self : BroadPhaseAlgorithm DynamicAABBTree) (node1ID node2ID : Int) :
    BroadPhaseAlgorithm DynamicAABBTree :=
  if node1ID = node2ID then self
  else
    { self with
      mPotentialPairs := self.mPotentialPairs ++ [⟨min node1ID node2ID, max node1ID node2ID⟩] }

/-- Modelled from the spec: "sort the buffer by the pair ordering (first handle ascending, then
second handle ascending)". The sort is the standard library's, called with the comparator
`BroadPair::smallerThan`; it is embedded as an insertion sort, an element being placed in front of
the first one that is not smaller than it. -/
def sortPotentialPairs (pairs : List BroadPair) : List BroadPair :=
  pairs.insertionSort (fun p q => BroadPair.smallerThan q p = false)

/-- Modelled from the spec: the skipping of duplicates in "collapse adjacent duplicates": the
entries that directly follow `pair` and carry its two handles are skipped; the first entry that
differs is emitted and becomes the pair compared against. -/
def collapseAfter (pair : BroadPair) : List BroadPair → List BroadPair
  | [] => []
  | nextPair :: rest =>
    if nextPair.collisionShape1ID ≠ pair.collisionShape1ID ∨
        nextPair.collisionShape2ID ≠ pair.collisionShape2ID then
      nextPair :: collapseAfter nextPair rest
    else collapseAfter pair rest

/-- Modelled from the spec: "collapse adjacent duplicates, producing one notification per unique
unordered pair" (part of the missing body of `computeOverlappingPairs`). -/
def collapseDuplicates : List BroadPair → List BroadPair
  | [] => []
  | pair :: rest => pair :: collapseAfter pair rest

/-- Modelled from the spec: the query phase of `computeOverlappingPairs` for one moved handle:
"query the tree with that handle's fat box; for each hit handle H' ≠ H, form the ordered pair
(min,max); append to a pair buffer". The tree's `getFatAABB` and `query` are parameters. -/
def BroadPhaseAlgorithm.reportOverlapsOf {DynamicAABBTree AABB : Type}
    (getFatAABB : DynamicAABBTree → Int → AABB) (query : DynamicAABBTree → AABB → List Int)
    (self : BroadPhaseAlgorithm DynamicAABBTree) (shapeID : Int) :
    BroadPhaseAlgorithm DynamicAABBTree :=
  (query self.mDynamicAABBTree (getFatAABB self.mDynamicAABBTree shapeID)).foldl
    (fun s hit => s.notifyOverlappingPair shapeID hit) self

/-- Modelled from the spec: the body of `BroadPhaseAlgorithm::computeOverlappingPairs` (declared
in the header, defined in the missing `BroadPhaseAlgorithm.cpp`). "For every handle currently in
the moved set, query the tree with that handle's fat box; [...] after processing all moved
handles, sort the buffer by the pair ordering and collapse adjacent duplicates, producing one
notification per unique unordered pair; invoke the pair-notification callback for each; clear the
moved set." The buffer "is entirely transient within one `computeOverlappingPairs` call". The
result is the sequence of pairs the callback is invoked with, and the coordinator afterwards. -/
def BroadPhaseAlgorithm.computeOverlappingPairs {DynamicAABBTree AABB : Type}
    (getFatAABB : DynamicAABBTree → Int → AABB) (query : DynamicAABBTree → AABB → List Int)
    (self : BroadPhaseAlgorithm DynamicAABBTree) :
    List BroadPair × BroadPhaseAlgorithm DynamicAABBTree :=
  let filled := self.mMovedShapes.foldl
    (fun s shapeID => s.reportOverlapsOf getFatAABB query shapeID)
    { self with mPotentialPairs := [] }
  let sorted := sortPotentialPairs filled.mPotentialPairs
  (collapseDuplicates sorted, { filled with mMovedShapes := [], mPotentialPairs := [] })

end reactphysics3d

/-! ## Testbed scene (`testbed/Scene.cpp`)

The scene computes in `double` and `float`. The two floating-point types are parameters `D` and
`F`, and so is every operation on them (conversions, literals, arithmetic, comparisons, library
calls): nothing is assumed about rounding, NaN or division by zero, and what is proved below
holds whatever these operations compute. -/

namespace openglframework

/-- Class `openglframework::Vector3`, its three `float` components. -/
structure Vector3 (F : Type) where
  x : F
  y : F
  z : F
  deriving DecidableEq, Repr

/-- The floating-point operations `Scene.cpp` performs on `double` (`D`) and `float` (`F`)
values: the implicit and explicit conversions, the literals (given by their decimal value) and
the operators, each under the type C++ evaluates it at. -/
structure FloatOps (D F : Type) where
  /-- conversion `int` to `double` -/
  intToDouble : Int → D
  /-- conversion `int` to `float` -/
  intToFloat : Int → F
  /-- promotion `float` to `double` -/
  floatToDouble : F → D
  /-- conversion `double` to `float` -/
  doubleToFloat : D → F
  /-- a `double` literal, as `1.0` -/
  doubleLit : ℚ → D
  /-- a `float` literal, as `0.5f` -/
  floatLit : ℚ → F
  /-- `a - b` on `double` -/
  subD : D → D → D
  /-- `a >= b` on `double` -/
  geD : D → D → Bool
  /-- `a <= b` on `double` -/
  leD : D → D → Bool
  /-- `a < b` on `double` -/
  ltD : D → D → Bool
  /-- `a + b` on `float` -/
  addF : F → F → F
  /-- `a - b` on `float` -/
  subF : F → F → F
  /-- `a * b` on `float` -/
  mulF : F → F → F
  /-- `a / b` on `float` -/
  divF : F → F → F
  /-- `-a` on `float` -/
  negF : F → F
  /-- `a < b` on `float` -/
  ltF : F → F → Bool
  /-- `a > b` on `float` -/
  gtF : F → F → Bool

/-- What `Scene.cpp` uses and does not define: the GLFW constant `GLFW_PRESS`, the constant `PI`,
the `<cmath>` functions (each as the `float` it yields where the code stores its result),
`std::numeric_limits<float>::epsilon()`, the `Vector3` default constructor and operations, and
`Camera::rotateAroundLocalPoint`. -/
structure Externals (F Camera : Type) where
  GLFW_PRESS : Int
  PI : F
  sin : F → F
  sqrt : F → F
  acos : F → F
  fabs : F → F
  epsilon : F
  /-- a default-constructed `Vector3` -/
  newVector3 : Vector3 F
  cross : Vector3 F → Vector3 F → Vector3 F
  dot : Vector3 F → Vector3 F → F
  length : Vector3 F → F
  normalize : Vector3 F → Vector3 F
  rotateAroundLocalPoint : Camera → Vector3 F → F → Vector3 F → Camera

/-- What the scene reads from its GLFW window `mWindow`: the size returned by
`glfwGetWindowSize` and the cursor position returned by `glfwGetCursorPos`. -/
structure Window (D : Type) where
  width : Int
  height : Int
  cursorX : D
  cursorY : D

/-- Class `Scene`, the members used by the mouse handling. -/
structure Scene (D F Camera : Type) where
  mWindow : Window D
  mCamera : Camera
  mCenterScene : Vector3 F
  mLastMouseX : D
  mLastMouseY : D
  mIsLastPointOnSphereValid : Bool
  mLastPointOnSphere : Vector3 F

variable {D F Camera : Type}

/-- Method `Scene::mapMouseCoordinatesToSphere`: map the mouse x,y coordinates to a point on a
sphere. The reference parameter `spherePoint` is passed in and handed back, written only when
the method returns `true`. -/
def Scene.mapMouseCoordinatesToSphere (O : FloatOps D F) (E : Externals F Camera)
    (self : Scene D F Camera) (xMouse yMouse : D) (spherePoint : Vector3 F) :
    Bool × Vector3 F :=
  -- Get the window dimension
  let width := self.mWindow.width
  let height := self.mWindow.height
  if O.geD xMouse (O.intToDouble 0) && O.leD xMouse (O.intToDouble width) &&
      O.geD yMouse (O.intToDouble 0) && O.leD yMouse (O.intToDouble height) then
    let x := O.divF
      (O.doubleToFloat
        (O.subD xMouse (O.floatToDouble (O.mulF (O.floatLit (1 / 2)) (O.intToFloat width)))))
      (O.intToFloat width)
    let y := O.divF
      (O.doubleToFloat
        (O.subD (O.floatToDouble (O.mulF (O.floatLit (1 / 2)) (O.intToFloat height))) yMouse))
      (O.intToFloat height)
    let sinx := E.sin (O.mulF (O.mulF E.PI x) (O.floatLit (1 / 2)))
    let siny := E.sin (O.mulF (O.mulF E.PI y) (O.floatLit (1 / 2)))
    let sinx2siny2 := O.addF (O.mulF sinx sinx) (O.mulF siny siny)
    -- Compute the point on the sphere
    (true,
      ⟨sinx, siny,
        if O.ltD (O.floatToDouble sinx2siny2) (O.doubleLit 1) then
          E.sqrt (O.subF (O.floatLit 1) sinx2siny2)
        else O.floatLit 0⟩)
  else (false, spherePoint)

/-- Method `Scene::mouseButtonEvent`: called when a mouse button event occurs. -/
def Scene.mouseButtonEvent (O : FloatOps D F) (E : Externals F Camera)
    (self : Scene D F Camera) (button action mods : Int) : Scene D F Camera :=
  -- Get the mouse cursor position
  let x := self.mWindow.cursorX
  let y := self.mWindow.cursorY
  -- If the mouse button is pressed
  if action = E.GLFW_PRESS then
    let r := self.mapMouseCoordinatesToSphere O E x y self.mLastPointOnSphere
    { self with
      mLastMouseX := x
      mLastMouseY := y
      mIsLastPointOnSphereValid := r.1
      mLastPointOnSphere := r.2 }
  else -- If the mouse button is released
    { self with mIsLastPointOnSphereValid := false }

/-- Method `Scene::rotate`: rotate the camera. -/
def Scene.rotate (O : FloatOps D F) (E : Externals F Camera) (self : Scene D F Camera)
    (xMouse yMouse : Int) : Scene D F Camera :=
  if self.mIsLastPointOnSphereValid then
    let r := self.mapMouseCoordinatesToSphere O E (O.intToDouble xMouse) (O.intToDouble yMouse)
      E.newVector3
    let isNewPointOK := r.1
    let newPoint3D := r.2
    if isNewPointOK then
      let axis := E.cross self.mLastPointOnSphere newPoint3D
      let cosAngle := E.dot self.mLastPointOnSphere newPoint3D
      let epsilon := E.epsilon
      if O.ltF (E.fabs cosAngle) (O.floatLit 1) && O.gtF (E.length axis) epsilon then
        let axis := E.normalize axis
        let angle := O.mulF (O.floatLit 2) (E.acos cosAngle)
        -- Rotate the camera around the center of the scene
        { self with
          mCamera := E.rotateAroundLocalPoint self.mCamera axis (O.negF angle) self.mCenterScene }
      else self
    else self
  else self

end openglframework

/-! ## Properties of the pair ordering -/

namespace reactphysics3d

/-- The comparator unfolded into the lexicographic condition on the two handles. -/
theorem BroadPair.smallerThan_eq_true_iff (p q : BroadPair) :
    BroadPair.smallerThan p q = true ↔
      p.collisionShape1ID < q.collisionShape1ID ∨
        (p.collisionShape1ID = q.collisionShape1ID ∧
          p.collisionShape2ID < q.collisionShape2ID) := by
  unfold BroadPair.smallerThan
  by_cases h1 : p.collisionShape1ID < q.collisionShape1ID
  · simp [h1]
  · by_cases h2 : p.collisionShape1ID = q.collisionShape1ID
    · simp [h2]
    · simp [h1, h2]

/-- The comparator answers `false` exactly when the lexicographic condition fails. -/
theorem BroadPair.smallerThan_eq_false_iff (p q : BroadPair) :
    BroadPair.smallerThan p q = false ↔
      q.collisionShape1ID < p.collisionShape1ID ∨
        (q.collisionShape1ID = p.collisionShape1ID ∧
          q.collisionShape2ID ≤ p.collisionShape2ID) := by
  rw [← Bool.not_eq_true, BroadPair.smallerThan_eq_true_iff]
  constructor
  · intro h
    by_contra hc
    apply h
    rcases lt_trichotomy p.collisionShape1ID q.collisionShape1ID with h1 | h1 | h1
    · exact Or.inl h1
    · refine Or.inr ⟨h1, ?_⟩
      by_contra h2
      exact hc (Or.inr ⟨h1.symm, not_lt.mp h2⟩)
    · exact absurd (Or.inl h1) hc
  · rintro (h | ⟨h1, h2⟩) (h3 | ⟨h3, h4⟩) <;> omega

/-- Two pairs carrying the same two handles are the same pair. -/
theorem BroadPair.eq_of_ids {p q : BroadPair}
    (h1 : p.collisionShape1ID = q.collisionShape1ID)
    (h2 : p.collisionShape2ID = q.collisionShape2ID) : p = q := by
  cases p; cases q; simp_all

/-- C1: `BroadPair::smallerThan` is the ordering "first handle ascending, then second handle
ascending": it answers true for `p`, `q` exactly when the first handle of `p` is below that of
`q`, or the first handles agree and the second handle of `p` is below that of `q`. -/
theorem smallerThan_is_lexicographic (p q : BroadPair) :
    BroadPair.smallerThan p q = true ↔
      (p.collisionShape1ID < q.collisionShape1ID ∨
        (p.collisionShape1ID = q.collisionShape1ID ∧
          p.collisionShape2ID < q.collisionShape2ID)) :=
  BroadPair.smallerThan_eq_true_iff p q

/-- C8: `BroadPair::smallerThan` is a strict total order on pairs: it is irreflexive, asymmetric
and transitive, and for any two pairs exactly one of "p smaller than q", "q smaller than p" and
"p and q carry the same two handles" holds. -/
theorem smallerThan_strict_total_order :
    (∀ p : BroadPair, BroadPair.smallerThan p p = false) ∧
    (∀ p q : BroadPair, BroadPair.smallerThan p q = true → BroadPair.smallerThan q p = false) ∧
    (∀ p q r : BroadPair, BroadPair.smallerThan p q = true → BroadPair.smallerThan q r = true →
      BroadPair.smallerThan p r = true) ∧
    (∀ p q : BroadPair,
      (BroadPair.smallerThan p q = true ∧ BroadPair.smallerThan q p = false ∧
          ¬ (p.collisionShape1ID = q.collisionShape1ID ∧
              p.collisionShape2ID = q.collisionShape2ID)) ∨
      (BroadPair.smallerThan p q = false ∧ BroadPair.smallerThan q p = true ∧
          ¬ (p.collisionShape1ID = q.collisionShape1ID ∧
              p.collisionShape2ID = q.collisionShape2ID)) ∨
      (BroadPair.smallerThan p q = false ∧ BroadPair.smallerThan q p = false ∧
          (p.collisionShape1ID = q.collisionShape1ID ∧
              p.collisionShape2ID = q.collisionShape2ID))) := by
  refine ⟨?_, ?_, ?_, ?_⟩
  · intro p
    rw [BroadPair.smallerThan_eq_false_iff]
    omega
  · intro p q h
    rw [BroadPair.smallerThan_eq_true_iff] at h
    rw [BroadPair.smallerThan_eq_false_iff]
    omega
  · intro p q r hpq hqr
    rw [BroadPair.smallerThan_eq_true_iff] at hpq hqr ⊢
    omega
  · intro p q
    simp only [BroadPair.smallerThan_eq_true_iff, BroadPair.smallerThan_eq_false_iff]
    omega

/-- The order laws of C8 at the pairs (1,2), (1,3) and (2,0). -/
theorem smallerThan_strict_total_order_witness :
    BroadPair.smallerThan ⟨1, 2⟩ ⟨1, 3⟩ = true ∧ BroadPair.smallerThan ⟨1, 3⟩ ⟨2, 0⟩ = true ∧
      BroadPair.smallerThan ⟨1, 2⟩ ⟨2, 0⟩ = true ∧ BroadPair.smallerThan ⟨1, 3⟩ ⟨1, 2⟩ = false :=
  ⟨by decide, by decide,
    smallerThan_strict_total_order.2.2.1 ⟨1, 2⟩ ⟨1, 3⟩ ⟨2, 0⟩ (by decide) (by decide),
    smallerThan_strict_total_order.2.1 ⟨1, 2⟩ ⟨1, 3⟩ (by decide)⟩

end reactphysics3d

/-! ## Sort-then-collapse -/

namespace reactphysics3d

/-- Behaviour of the duplicate skipping after an emitted pair `p`, on a buffer whose entries are
all not smaller than `p` and which is sorted: what it emits lies in the buffer and is strictly
above `p`, is strictly increasing, and misses no entry other than copies of `p`. -/
theorem collapseAfter_sorted (l : List BroadPair) :
    ∀ p : BroadPair,
      (p :: l).Pairwise (fun a b => BroadPair.smallerThan b a = false) →
      (∀ x ∈ collapseAfter p l, x ∈ l ∧ BroadPair.smallerThan p x = true) ∧
      (collapseAfter p l).Pairwise (fun a b => BroadPair.smallerThan a b = true) ∧
      (∀ x ∈ l, x = p ∨ x ∈ collapseAfter p l) := by
  induction l with
  | nil =>
    intro p _
    simp [collapseAfter]
  | cons q rest ih =>
    intro p hs
    have hpq : BroadPair.smallerThan q p = false :=
      (List.pairwise_cons.mp hs).1 q (List.mem_cons_self q rest)
    have hqrest : (q :: rest).Pairwise (fun a b => BroadPair.smallerThan b a = false) :=
      (List.pairwise_cons.mp hs).2
    have hprest : (p :: rest).Pairwise (fun a b => BroadPair.smallerThan b a = false) :=
      hs.sublist ((List.Sublist.refl rest).cons q |>.cons₂ p)
    by_cases hne : q.collisionShape1ID ≠ p.collisionShape1ID ∨
        q.collisionShape2ID ≠ p.collisionShape2ID
    · obtain ⟨ih1, ih2, ih3⟩ := ih q hqrest
      have hlt : BroadPair.smallerThan p q = true := by
        rw [BroadPair.smallerThan_eq_false_iff] at hpq
        rw [BroadPair.smallerThan_eq_true_iff]
        omega
      have hstep : collapseAfter p (q :: rest) = q :: collapseAfter q rest := by
        simp only [collapseAfter, if_pos hne]
      rw [hstep]
      refine ⟨?_, ?_, ?_⟩
      · intro x hx
        rcases List.mem_cons.mp hx with rfl | hx
        · exact ⟨List.mem_cons_self _ _, hlt⟩
        · obtain ⟨hxm, hqx⟩ := ih1 x hx
          refine ⟨List.mem_cons_of_mem _ hxm, ?_⟩
          rw [BroadPair.smallerThan_eq_true_iff] at hlt hqx ⊢
          omega
      · exact List.pairwise_cons.mpr ⟨fun x hx => (ih1 x hx).2, ih2⟩
      · intro x hx
        rcases List.mem_cons.mp hx with rfl | hx
        · exact Or.inr (List.mem_cons_self _ _)
        · rcases ih3 x hx with rfl | hx
          · exact Or.inr (List.mem_cons_self _ _)
          · exact Or.inr (List.mem_cons_of_mem _ hx)
    · obtain ⟨ih1, ih2, ih3⟩ := ih p hprest
      have hstep : collapseAfter p (q :: rest) = collapseAfter p rest := by
        simp only [collapseAfter, if_neg hne]
      have hqp : q = p := by
        apply BroadPair.eq_of_ids <;> omega
      rw [hstep]
      refine ⟨?_, ih2, ?_⟩
      · intro x hx
        exact ⟨List.mem_cons_of_mem _ (ih1 x hx).1, (ih1 x hx).2⟩
      · intro x hx
        rcases List.mem_cons.mp hx with rfl | hx
        · exact Or.inl hqp
        · exact ih3 x hx

/-- A strictly increasing sequence of pairs holds no pair twice. -/
theorem nodup_of_strictly_increasing {l : List BroadPair}
    (h : l.Pairwise (fun a b => BroadPair.smallerThan a b = true)) : l.Nodup := by
  refine h.imp ?_
  intro a b hab heq
  subst heq
  rw [BroadPair.smallerThan_eq_true_iff] at hab
  omega

/-- In a sorted buffer, an entry lying between two occurrences of a pair is that pair. -/
theorem sorted_contiguous {l : List BroadPair}
    (hs : l.Pairwise (fun a b => BroadPair.smallerThan b a = false))
    (i j k : Nat) (p q : BroadPair) (hij : i ≤ j) (hjk : j ≤ k)
    (hi : l[i]? = some p) (hj : l[j]? = some q) (hk : l[k]? = some p) : q = p := by
  rcases Nat.eq_or_lt_of_le hij with rfl | hij
  · rw [hi] at hj
    exact (Option.some.inj hj).symm
  rcases Nat.eq_or_lt_of_le hjk with rfl | hjk
  · rw [hj] at hk
    exact Option.some.inj hk
  obtain ⟨hil, hi⟩ := List.getElem?_eq_some_iff.mp hi
  obtain ⟨hjl, hj⟩ := List.getElem?_eq_some_iff.mp hj
  obtain ⟨hkl, hk⟩ := List.getElem?_eq_some_iff.mp hk
  have h1 := List.pairwise_iff_getElem.mp hs i j hil hjl hij
  have h2 := List.pairwise_iff_getElem.mp hs j k hjl hkl hjk
  rw [hi, hj] at h1
  rw [hj, hk] at h2
  rw [BroadPair.smallerThan_eq_false_iff] at h1 h2
  apply BroadPair.eq_of_ids <;> omega

/-- On a sorted buffer the collapse is strictly increasing. -/
theorem collapseDuplicates_strictly_increasing {buffer : List BroadPair}
    (hsorted : buffer.Pairwise (fun a b => BroadPair.smallerThan b a = false)) :
    (collapseDuplicates buffer).Pairwise (fun a b => BroadPair.smallerThan a b = true) := by
  cases buffer with
  | nil => simp [collapseDuplicates]
  | cons p rest =>
    obtain ⟨h1, h2, _⟩ := collapseAfter_sorted rest p hsorted
    exact List.pairwise_cons.mpr ⟨fun x hx => (h1 x hx).2, h2⟩

/-- On a sorted buffer the collapse has the members of the buffer. -/
theorem mem_collapseDuplicates_of_sorted {buffer : List BroadPair}
    (hsorted : buffer.Pairwise (fun a b => BroadPair.smallerThan b a = false))
    (x : BroadPair) : x ∈ collapseDuplicates buffer ↔ x ∈ buffer := by
  cases buffer with
  | nil => simp [collapseDuplicates]
  | cons p rest =>
    obtain ⟨h1, _, h3⟩ := collapseAfter_sorted rest p hsorted
    simp only [collapseDuplicates, List.mem_cons]
    constructor
    · rintro (h | h)
      · exact Or.inl h
      · exact Or.inr (h1 x h).1
    · rintro (h | h)
      · exact Or.inl h
      · exact h3 x h

/-- The sorted buffer is sorted: no entry is smaller than an entry before it. -/
theorem sortPotentialPairs_sorted (pairs : List BroadPair) :
    (sortPotentialPairs pairs).Pairwise (fun a b => BroadPair.smallerThan b a = false) := by
  haveI : IsTotal BroadPair (fun p q => BroadPair.smallerThan q p = false) :=
    ⟨fun p q => by
      simp only [BroadPair.smallerThan_eq_false_iff]
      omega⟩
  haveI : IsTrans BroadPair (fun p q => BroadPair.smallerThan q p = false) :=
    ⟨fun p q r hpq hqr => by
      simp only [BroadPair.smallerThan_eq_false_iff] at hpq hqr ⊢
      omega⟩
  exact List.sorted_insertionSort _ pairs

/-- Sorting and then collapsing any buffer gives its pairs, each one once. -/
theorem sort_then_collapse_unique (pairs : List BroadPair) :
    (collapseDuplicates (sortPotentialPairs pairs)).Nodup ∧
      ∀ x : BroadPair, x ∈ collapseDuplicates (sortPotentialPairs pairs) ↔ x ∈ pairs := by
  refine ⟨nodup_of_strictly_increasing
    (collapseDuplicates_strictly_increasing (sortPotentialPairs_sorted pairs)), ?_⟩
  intro x
  rw [mem_collapseDuplicates_of_sorted (sortPotentialPairs_sorted pairs) x]
  exact (List.perm_insertionSort _ pairs).mem_iff

/-- What `computeOverlappingPairs` emits holds no pair twice. -/
theorem computeOverlappingPairs_emits_each_pair_once {DynamicAABBTree AABB : Type}
    (getFatAABB : DynamicAABBTree → Int → AABB) (query : DynamicAABBTree → AABB → List Int)
    (self : BroadPhaseAlgorithm DynamicAABBTree) :
    (self.computeOverlappingPairs getFatAABB query).1.Nodup :=
  (sort_then_collapse_unique _).1

/-- C2: on a buffer sorted with respect to `BroadPair::smallerThan` (no entry is smaller than an
entry before it), the entries carrying the same two handles are contiguous, and collapsing the
runs of adjacent equal pairs gives a sequence that is strictly increasing under `smallerThan`,
holds no pair twice, and holds exactly the distinct pairs of the buffer. -/
theorem collapseDuplicates_of_sorted (buffer : List BroadPair)
    (hsorted : buffer.Pairwise (fun a b => BroadPair.smallerThan b a = false)) :
    (∀ (i j k : Nat) (p : BroadPair), i ≤ j → j ≤ k →
        buffer[i]? = some p → buffer[k]? = some p → buffer[j]? = some p) ∧
    (collapseDuplicates buffer).Pairwise (fun a b => BroadPair.smallerThan a b = true) ∧
    (collapseDuplicates buffer).Nodup ∧
    (∀ p : BroadPair, p ∈ collapseDuplicates buffer ↔ p ∈ buffer) ∧
    (collapseDuplicates buffer).Perm buffer.dedup := by
  have hinc := collapseDuplicates_strictly_increasing hsorted
  have hmem := mem_collapseDuplicates_of_sorted hsorted
  refine ⟨?_, hinc, nodup_of_strictly_increasing hinc, hmem, ?_⟩
  · intro i j k p hij hjk hi hk
    have hj : j < buffer.length :=
      lt_of_le_of_lt hjk (List.getElem?_eq_some_iff.mp hk).1
    have hq : buffer[j]? = some buffer[j] := List.getElem?_eq_getElem hj
    rw [hq, sorted_contiguous hsorted i j k p buffer[j] hij hjk hi hq hk]
  · rw [List.perm_ext_iff_of_nodup (nodup_of_strictly_increasing hinc) (List.nodup_dedup buffer)]
    intro x
    rw [hmem x, List.mem_dedup]

/-- C2 at the sorted buffer (1,2), (1,2), (1,3), (2,3), (2,3), which collapses to
(1,2), (1,3), (2,3). -/
theorem collapseDuplicates_of_sorted_witness :
    collapseDuplicates [⟨1, 2⟩, ⟨1, 2⟩, ⟨1, 3⟩, ⟨2, 3⟩, ⟨2, 3⟩] = [⟨1, 2⟩, ⟨1, 3⟩, ⟨2, 3⟩] ∧
    (collapseDuplicates [⟨1, 2⟩, ⟨1, 2⟩, ⟨1, 3⟩, ⟨2, 3⟩, ⟨2, 3⟩]).Nodup :=
  ⟨by decide,
    (collapseDuplicates_of_sorted [⟨1, 2⟩, ⟨1, 2⟩, ⟨1, 3⟩, ⟨2, 3⟩, ⟨2, 3⟩] (by decide)).2.2.1⟩

end reactphysics3d

/-! ## The coordinator -/

namespace reactphysics3d

/-- C3: `testOverlappingShapes(shape1, shape2)` is the direct box test between the two shapes'
fat boxes: its answer is `AABB::testCollision` applied to `getFatAABB(shape1.mBroadPhaseID)` and
`getFatAABB(shape2.mBroadPhaseID)`; two coordinators that agree on those two fat boxes give the
same answer whatever their moved shapes and potential pairs are; and the call leaves the
coordinator as it was. -/
theorem testOverlappingShapes_is_direct_box_test {DynamicAABBTree AABB : Type}
    (getFatAABB : DynamicAABBTree → Int → AABB) (testCollision : AABB → AABB → Bool) :
    (∀ (self : BroadPhaseAlgorithm DynamicAABBTree) (shape1 shape2 : ProxyShape),
      (self.testOverlappingShapes getFatAABB testCollision shape1 shape2).1 =
        testCollision (getFatAABB self.mDynamicAABBTree shape1.mBroadPhaseID)
          (getFatAABB self.mDynamicAABBTree shape2.mBroadPhaseID)) ∧
    (∀ (self other : BroadPhaseAlgorithm DynamicAABBTree) (shape1 shape2 : ProxyShape),
      getFatAABB self.mDynamicAABBTree shape1.mBroadPhaseID =
          getFatAABB other.mDynamicAABBTree shape1.mBroadPhaseID →
      getFatAABB self.mDynamicAABBTree shape2.mBroadPhaseID =
          getFatAABB other.mDynamicAABBTree shape2.mBroadPhaseID →
      (self.testOverlappingShapes getFatAABB testCollision shape1 shape2).1 =
        (other.testOverlappingShapes getFatAABB testCollision shape1 shape2).1) ∧
    (∀ (self : BroadPhaseAlgorithm DynamicAABBTree) (shape1 shape2 : ProxyShape),
      (self.testOverlappingShapes getFatAABB testCollision shape1 shape2).2 = self) := by
  refine ⟨fun _ _ _ => rfl, ?_, fun _ _ _ => rfl⟩
  intro self other shape1 shape2 h1 h2
  simp only [BroadPhaseAlgorithm.testOverlappingShapes, h1, h2]

/-- C3 on a one-dimensional tree (handle 0 has the box [0,2], handle 1 the box [1,3], every other
handle the box [10,11]): with different trees, moved shapes and potential pairs but the same two
fat boxes, the answer is the same. -/
theorem testOverlappingShapes_is_direct_box_test_witness :
    (BroadPhaseAlgorithm.testOverlappingShapes
        (fun (tree : Int → Int × Int) id => tree id)
        (fun a b => decide (a.1 ≤ b.2 ∧ b.1 ≤ a.2))
        ⟨fun id => if id = 0 then (0, 2) else if id = 1 then (1, 3) else (10, 11), [0, 1], []⟩
        ⟨0⟩ ⟨1⟩).1 =
      (BroadPhaseAlgorithm.testOverlappingShapes
        (fun (tree : Int → Int × Int) id => tree id)
        (fun a b => decide (a.1 ≤ b.2 ∧ b.1 ≤ a.2))
        ⟨fun id => if id = 0 then (0, 2) else (1, 3), [], [⟨0, 1⟩, ⟨3, 7⟩]⟩
        ⟨0⟩ ⟨1⟩).1 :=
  (testOverlappingShapes_is_direct_box_test
      (fun (tree : Int → Int × Int) id => tree id)
      (fun a b => decide (a.1 ≤ b.2 ∧ b.1 ≤ a.2))).2.1
    ⟨fun id => if id = 0 then (0, 2) else if id = 1 then (1, 3) else (10, 11), [0, 1], []⟩
    ⟨fun id => if id = 0 then (0, 2) else (1, 3), [], [⟨0, 1⟩, ⟨3, 7⟩]⟩
    ⟨0⟩ ⟨1⟩ (by decide) (by decide)

/-- What `notifyOverlappingPair` does to the buffer: nothing for equal handles, otherwise the pair
(min, max) is appended. -/
theorem notifyOverlappingPair_buffer {DynamicAABBTree : Type}
    (self : BroadPhaseAlgorithm DynamicAABBTree) (node1ID node2ID : Int) :
    (self.notifyOverlappingPair node1ID node2ID).mPotentialPairs =
      if node1ID = node2ID then self.mPotentialPairs
      else self.mPotentialPairs ++ [⟨min node1ID node2ID, max node1ID node2ID⟩] := by
  unfold BroadPhaseAlgorithm.notifyOverlappingPair
  split <;> rfl

/-- Buffering keeps "first handle below second handle" on every buffered pair. -/
theorem notifyOverlappingPair_ordered {DynamicAABBTree : Type}
    (self : BroadPhaseAlgorithm DynamicAABBTree) (node1ID node2ID : Int)
    (h : ∀ p ∈ self.mPotentialPairs, p.collisionShape1ID < p.collisionShape2ID) :
    ∀ p ∈ (self.notifyOverlappingPair node1ID node2ID).mPotentialPairs,
      p.collisionShape1ID < p.collisionShape2ID := by
  intro p hp
  rw [notifyOverlappingPair_buffer] at hp
  split at hp
  · exact h p hp
  · rename_i hne
    rcases List.mem_append.mp hp with hp | hp
    · exact h p hp
    · rw [List.mem_singleton] at hp
      subst hp
      show min node1ID node2ID < max node1ID node2ID
      rcases lt_or_gt_of_ne hne with hlt | hgt
      · rw [min_eq_left hlt.le, max_eq_right hlt.le]; exact hlt
      · rw [min_eq_right hgt.le, max_eq_left hgt.le]; exact hgt

/-- The query phase for one moved handle keeps "first handle below second handle". -/
theorem reportOverlapsOf_ordered {DynamicAABBTree AABB : Type}
    (getFatAABB : DynamicAABBTree → Int → AABB) (query : DynamicAABBTree → AABB → List Int)
    (self : BroadPhaseAlgorithm DynamicAABBTree) (shapeID : Int)
    (h : ∀ p ∈ self.mPotentialPairs, p.collisionShape1ID < p.collisionShape2ID) :
    ∀ p ∈ (self.reportOverlapsOf getFatAABB query shapeID).mPotentialPairs,
      p.collisionShape1ID < p.collisionShape2ID := by
  unfold BroadPhaseAlgorithm.reportOverlapsOf
  generalize query self.mDynamicAABBTree (getFatAABB self.mDynamicAABBTree shapeID) = hits
  induction hits generalizing self with
  | nil => exact h
  | cons hit rest ih =>
    rw [List.foldl_cons]
    exact ih _ (notifyOverlappingPair_ordered self shapeID hit h)

/-- The whole query phase keeps "first handle below second handle". -/
theorem queryPhase_ordered {DynamicAABBTree AABB : Type}
    (getFatAABB : DynamicAABBTree → Int → AABB) (query : DynamicAABBTree → AABB → List Int)
    (moved : List Int) (self : BroadPhaseAlgorithm DynamicAABBTree)
    (h : ∀ p ∈ self.mPotentialPairs, p.collisionShape1ID < p.collisionShape2ID) :
    ∀ p ∈ (moved.foldl (fun s shapeID => s.reportOverlapsOf getFatAABB query shapeID)
        self).mPotentialPairs, p.collisionShape1ID < p.collisionShape2ID := by
  induction moved generalizing self with
  | nil => exact h
  | cons shapeID rest ih =>
    rw [List.foldl_cons]
    exact ih _ (reportOverlapsOf_ordered getFatAABB query self shapeID h)

/-- What the duplicate skipping emits comes from the buffer. -/
theorem mem_of_mem_collapseAfter (l : List BroadPair) :
    ∀ (p x : BroadPair), x ∈ collapseAfter p l → x ∈ l := by
  induction l with
  | nil => intro p x hx; simp [collapseAfter] at hx
  | cons q rest ih =>
    intro p x hx
    unfold collapseAfter at hx
    split at hx
    · rcases List.mem_cons.mp hx with rfl | hx
      · exact List.mem_cons_self _ _
      · exact List.mem_cons_of_mem _ (ih q x hx)
    · exact List.mem_cons_of_mem _ (ih p x hx)

/-- What the collapse emits comes from the buffer. -/
theorem mem_of_mem_collapseDuplicates {l : List BroadPair} {x : BroadPair}
    (hx : x ∈ collapseDuplicates l) : x ∈ l := by
  cases l with
  | nil => simp [collapseDuplicates] at hx
  | cons p rest =>
    rcases List.mem_cons.mp hx with rfl | hx
    · exact List.mem_cons_self _ _
    · exact List.mem_cons_of_mem _ (mem_of_mem_collapseAfter rest p x hx)

/-- Sorting the buffer neither adds nor drops a pair. -/
theorem mem_sortPotentialPairs {l : List BroadPair} {x : BroadPair} :
    x ∈ sortPotentialPairs l ↔ x ∈ l :=
  (List.perm_insertionSort _ l).mem_iff

/-- Every pair `computeOverlappingPairs` emits has its first handle below its second. -/
theorem computeOverlappingPairs_emits_ordered {DynamicAABBTree AABB : Type}
    (getFatAABB : DynamicAABBTree → Int → AABB) (query : DynamicAABBTree → AABB → List Int)
    (self : BroadPhaseAlgorithm DynamicAABBTree) :
    ∀ p ∈ (self.computeOverlappingPairs getFatAABB query).1,
      p.collisionShape1ID < p.collisionShape2ID := by
  intro p hp
  have hp1 := mem_sortPotentialPairs.mp (mem_of_mem_collapseDuplicates hp)
  exact queryPhase_ordered getFatAABB query self.mMovedShapes _ (by simp) p hp1

end reactphysics3d

/-! ## Potential pairs: ordering of the two handles, no self-pairs -/

namespace reactphysics3d

/-- C4, as stated, fails on the structure: `BroadPair` is a plain aggregate without constructor,
and the value with handles (2, 1) is a `BroadPair` whose first handle is not below its second. -/
theorem BroadPair_value_with_first_above_second :
    (BroadPair.mk 2 1).collisionShape1ID = 2 ∧ (BroadPair.mk 2 1).collisionShape2ID = 1 ∧
      ¬ (∀ p : BroadPair, p.collisionShape1ID < p.collisionShape2ID) :=
  ⟨rfl, rfl, fun h => absurd (h ⟨2, 1⟩) (by decide)⟩

/-- C4, amended: the structure itself enforces nothing, the order comes from where the coordinator
builds its pairs. For two different handles `notifyOverlappingPair` appends the pair (min, max),
whose first handle is below its second; whatever it adds to the buffer has its first handle below
its second; and so has every pair `computeOverlappingPairs` emits. -/
theorem potential_pair_ordered_where_buffered {DynamicAABBTree AABB : Type}
    (getFatAABB : DynamicAABBTree → Int → AABB) (query : DynamicAABBTree → AABB → List Int)
    (self : BroadPhaseAlgorithm DynamicAABBTree) :
    (∀ node1ID node2ID : Int, node1ID ≠ node2ID →
      (self.notifyOverlappingPair node1ID node2ID).mPotentialPairs =
          self.mPotentialPairs ++ [⟨min node1ID node2ID, max node1ID node2ID⟩] ∧
        min node1ID node2ID < max node1ID node2ID) ∧
    (∀ (node1ID node2ID : Int),
      ∀ p ∈ (self.notifyOverlappingPair node1ID node2ID).mPotentialPairs,
        p ∈ self.mPotentialPairs ∨ p.collisionShape1ID < p.collisionShape2ID) ∧
    (∀ p ∈ (self.computeOverlappingPairs getFatAABB query).1,
      p.collisionShape1ID < p.collisionShape2ID) := by
  refine ⟨?_, ?_, computeOverlappingPairs_emits_ordered getFatAABB query self⟩
  · intro a b hne
    refine ⟨by rw [notifyOverlappingPair_buffer, if_neg hne], ?_⟩
    rcases lt_or_gt_of_ne hne with hlt | hgt
    · rw [min_eq_left hlt.le, max_eq_right hlt.le]; exact hlt
    · rw [min_eq_right hgt.le, max_eq_left hgt.le]; exact hgt
  · intro a b p hp
    rw [notifyOverlappingPair_buffer] at hp
    split at hp
    · exact Or.inl hp
    · rename_i hne
      rcases List.mem_append.mp hp with hp | hp
      · exact Or.inl hp
      · rw [List.mem_singleton] at hp
        subst hp
        refine Or.inr ?_
        show min a b < max a b
        rcases lt_or_gt_of_ne hne with hlt | hgt
        · rw [min_eq_left hlt.le, max_eq_right hlt.le]; exact hlt
        · rw [min_eq_right hgt.le, max_eq_left hgt.le]; exact hgt

/-- C4, amended, on a coordinator whose buffer holds (0, 1): notifying the handles 7 and 3 appends
the pair (3, 7). -/
theorem potential_pair_ordered_where_buffered_witness :
    (BroadPhaseAlgorithm.notifyOverlappingPair
        (⟨(), [7], [⟨0, 1⟩]⟩ : BroadPhaseAlgorithm Unit) 7 3).mPotentialPairs =
      [⟨0, 1⟩] ++ [⟨min 7 3, max 7 3⟩] ∧ min (7 : Int) 3 < max 7 3 :=
  (potential_pair_ordered_where_buffered (fun (_ : Unit) (id : Int) => id)
    (fun (_ : Unit) (_ : Int) => ([] : List Int)) ⟨(), [7], [⟨0, 1⟩]⟩).1 7 3 (by decide)

/-- C5: no self-pairs. `computeOverlappingPairs` never emits a pair whose two handles are equal,
whatever the tree query reports; `notifyOverlappingPair` adds no pair with equal handles to the
buffer, and called with twice the same handle it leaves the coordinator as it was. -/
theorem no_self_pairs {DynamicAABBTree AABB : Type}
    (getFatAABB : DynamicAABBTree → Int → AABB) (query : DynamicAABBTree → AABB → List Int)
    (self : BroadPhaseAlgorithm DynamicAABBTree) :
    (∀ p ∈ (self.computeOverlappingPairs getFatAABB query).1,
      p.collisionShape1ID ≠ p.collisionShape2ID) ∧
    (∀ (node1ID node2ID : Int),
      ∀ p ∈ (self.notifyOverlappingPair node1ID node2ID).mPotentialPairs,
        p ∈ self.mPotentialPairs ∨ p.collisionShape1ID ≠ p.collisionShape2ID) ∧
    (∀ nodeID : Int, self.notifyOverlappingPair nodeID nodeID = self) := by
  refine ⟨?_, ?_, ?_⟩
  · intro p hp
    exact ne_of_lt (computeOverlappingPairs_emits_ordered getFatAABB query self p hp)
  · intro a b p hp
    by_cases hold : p ∈ self.mPotentialPairs
    · exact Or.inl hold
    · refine Or.inr ?_
      rw [notifyOverlappingPair_buffer] at hp
      split at hp
      · exact absurd hp hold
      · rename_i hne
        rcases List.mem_append.mp hp with hp | hp
        · exact absurd hp hold
        · rw [List.mem_singleton] at hp
          subst hp
          show min a b ≠ max a b
          rcases lt_or_gt_of_ne hne with hlt | hgt
          · rw [min_eq_left hlt.le, max_eq_right hlt.le]; exact ne_of_lt hlt
          · rw [min_eq_right hgt.le, max_eq_left hgt.le]; exact ne_of_lt hgt
  · intro a
    simp [BroadPhaseAlgorithm.notifyOverlappingPair]

/-- C5 on a one-dimensional tree holding the boxes [0,2], [1,3] and [10,11] for the handles 0, 1
and 2, all three moved, with a query that reports every handle whose box meets the queried one
(the queried handle included): the only pair emitted is (0, 1). -/
theorem no_self_pairs_witness :
    (BroadPhaseAlgorithm.computeOverlappingPairs
        (fun (tree : List (Int × Int)) (id : Int) => tree.getD id.toNat (0, 0))
        (fun (tree : List (Int × Int)) (box : Int × Int) =>
          ((List.range tree.length).filter (fun i =>
            decide ((tree.getD i (0, 0)).1 ≤ box.2 ∧ box.1 ≤ (tree.getD i (0, 0)).2))).map
              Int.ofNat)
        ⟨[(0, 2), (1, 3), (10, 11)], [0, 1, 2], []⟩).1 = [⟨0, 1⟩] ∧
      (⟨0, 1⟩ : BroadPair).collisionShape1ID ≠ (⟨0, 1⟩ : BroadPair).collisionShape2ID :=
  ⟨by decide,
    (no_self_pairs
        (fun (tree : List (Int × Int)) (id : Int) => tree.getD id.toNat (0, 0))
        (fun (tree : List (Int × Int)) (box : Int × Int) =>
          ((List.range tree.length).filter (fun i =>
            decide ((tree.getD i (0, 0)).1 ≤ box.2 ∧ box.1 ≤ (tree.getD i (0, 0)).2))).map
              Int.ofNat)
        ⟨[(0, 2), (1, 3), (10, 11)], [0, 1, 2], []⟩).1 ⟨0, 1⟩ (by decide)⟩

end reactphysics3d

/-! ## The trackball of the testbed scene -/

namespace openglframework

/-- C7: for every action other than `GLFW_PRESS`, `mouseButtonEvent` sets
`mIsLastPointOnSphereValid` to false and leaves `mLastMouseX`, `mLastMouseY` and
`mLastPointOnSphere` as they were; a `rotate` call made in the resulting state changes nothing,
so it performs no camera rotation, for any mouse coordinates. This holds whatever the
floating-point operations and the library calls compute. -/
theorem mouseButtonEvent_release_invalidates {D F Camera : Type}
    (O : FloatOps D F) (E : Externals F Camera) (self : Scene D F Camera)
    (button action mods : Int) (hrelease : action ≠ E.GLFW_PRESS) :
    (self.mouseButtonEvent O E button action mods).mIsLastPointOnSphereValid = false ∧
    (self.mouseButtonEvent O E button action mods).mLastMouseX = self.mLastMouseX ∧
    (self.mouseButtonEvent O E button action mods).mLastMouseY = self.mLastMouseY ∧
    (self.mouseButtonEvent O E button action mods).mLastPointOnSphere =
      self.mLastPointOnSphere ∧
    (∀ xMouse yMouse : Int,
      (self.mouseButtonEvent O E button action mods).rotate O E xMouse yMouse =
        self.mouseButtonEvent O E button action mods) ∧
    (∀ xMouse yMouse : Int,
      ((self.mouseButtonEvent O E button action mods).rotate O E xMouse yMouse).mCamera =
        self.mCamera) := by
  have hstep : self.mouseButtonEvent O E button action mods =
      { self with mIsLastPointOnSphereValid := false } := by
    unfold Scene.mouseButtonEvent
    exact if_neg hrelease
  have hrot : ∀ xMouse yMouse : Int,
      Scene.rotate O E { self with mIsLastPointOnSphereValid := false } xMouse yMouse =
        { self with mIsLastPointOnSphereValid := false } := by
    intro xMouse yMouse
    unfold Scene.rotate
    exact if_neg Bool.false_ne_true
  rw [hstep]
  refine ⟨rfl, rfl, rfl, rfl, hrot, ?_⟩
  intro xMouse yMouse
  rw [hrot]

/-- C7 with both floating-point types read as the rationals, `GLFW_PRESS` = 1, a camera that
counts its rotations and a scene whose trackball point is valid: after the action 0 the point is
no longer valid. -/
theorem mouseButtonEvent_release_invalidates_witness :
    (0 : Int) ≠ 1 ∧
    (Scene.mouseButtonEvent
        (⟨fun n => n, fun n => n, id, id, id, id, fun a b => a - b, fun a b => decide (a ≥ b),
          fun a b => decide (a ≤ b), fun a b => decide (a < b), fun a b => a + b,
          fun a b => a - b, fun a b => a * b, fun a b => a / b, fun a => -a,
          fun a b => decide (a < b), fun a b => decide (a > b)⟩ : FloatOps ℚ ℚ)
        (⟨1, 3, id, id, id, abs, 0, ⟨0, 0, 0⟩, fun a _ => a, fun _ _ => 0, fun _ => 1, id,
          fun c _ _ _ => c + 1⟩ : Externals ℚ Nat)
        ⟨⟨4, 4, 1, 1⟩, 0, ⟨0, 0, 0⟩, 2, 2, true, ⟨0, 0, 1⟩⟩ 0 0 0).mIsLastPointOnSphereValid =
      false :=
  ⟨by decide,
    (mouseButtonEvent_release_invalidates
        (⟨fun n => n, fun n => n, id, id, id, id, fun a b => a - b, fun a b => decide (a ≥ b),
          fun a b => decide (a ≤ b), fun a b => decide (a < b), fun a b => a + b,
          fun a b => a - b, fun a b => a * b, fun a b => a / b, fun a => -a,
          fun a b => decide (a < b), fun a b => decide (a > b)⟩ : FloatOps ℚ ℚ)
        (⟨1, 3, id, id, id, abs, 0, ⟨0, 0, 0⟩, fun a _ => a, fun _ _ => 0, fun _ => 1, id,
          fun c _ _ _ => c + 1⟩ : Externals ℚ Nat)
        ⟨⟨4, 4, 1, 1⟩, 0, ⟨0, 0, 0⟩, 2, 2, true, ⟨0, 0, 1⟩⟩ 0 0 0 (by decide)).1⟩

end openglframework
